import Mathlib

/-!
# GoModbusServer: frame accessors and request dispatch

A shallow embedding of `frame.go` and `server.go` (package `mbserver`).

Conventions of the embedding.

* A byte is a natural number below 256 and a `uint16` one below 65536; every
  conversion of the source that truncates (`byte(x)`, `uint8(x)`) is an explicit
  remainder here.  A Go `int` is an `Int`.
* A Go `[]byte` stored in a frame is the list of its elements.  Where the source
  hands over a slice that may be the nil slice (the bytes a handler returns),
  the value is an `Option`: `none` is the nil slice.
* A Go call that may fault at run time (an index out of range, a nil pointer
  dereference) returns an `Option`: `none` is the fault.
* Code that mutates its receiver returns the new value (state passing).
-/

namespace mbserver

/-! ## Exceptions -/

/-- Modelled from the spec: the missing type `Exception`, a Modbus exception code that is
encoded as a single byte in the response payload. -/
abbrev Exception := Nat

/-- Modelled from the spec: the missing package variable `Success`, the sentinel
with code 0. -/
def Success : Exception := 0

/-- Modelled from the spec: the missing package variable `IllegalFunction`, the first
of the standard Modbus exception codes. -/
def IllegalFunction : Exception := 1

/-- A value of the Go type `*Exception`, as handlers return it and as `handle`
compares it with `&Success`: the nil pointer, the address of the package variable
`Success`, or the address of any other variable of type `Exception` together with
the code stored there (`&IllegalFunction` is `var IllegalFunction`). -/
inductive ExceptionPtr where
  | null
  | addrSuccess
  | var (code : Exception)
  deriving DecidableEq, Repr

/-- Dereference `*exception`; `none` is the nil pointer fault. -/
def ExceptionPtr.deref : ExceptionPtr → Option Exception
  | .null => none
  | .addrSuccess => some Success
  | .var code => some code

/-! ## Frames -/

/-- Modelled from the spec: the missing RTU variant of a frame (unit address, function code,
payload, checksum). -/
structure RTUFrame where
  address : Nat
  functionCode : Nat
  data : List Nat
  crc : Nat
  deriving DecidableEq, Repr

/-- Modelled from the spec: the missing TCP variant of a frame (MBAP header fields, unit
address, function code, payload). -/
structure TCPFrame where
  transactionIdentifier : Nat
  protocolIdentifier : Nat
  length : Nat
  address : Nat
  functionCode : Nat
  data : List Nat
  deriving DecidableEq, Repr

/-- The interface `Framer` of the source, closed over its two implementations. -/
inductive Framer where
  | rtu (f : RTUFrame)
  | tcp (f : TCPFrame)
  deriving DecidableEq, Repr

/-- Modelled from the spec: the missing method `Copy`, a deep and independent copy; in a
value semantics it is the frame itself. -/
def Framer.Copy (frame : Framer) : Framer := frame

/-- Modelled from the spec: the missing method `GetData`, the payload. -/
def Framer.GetData : Framer → List Nat
  | .rtu f => f.data
  | .tcp f => f.data

/-- Modelled from the spec: the missing method `GetFunction`, the function code byte. -/
def Framer.GetFunction : Framer → Nat
  | .rtu f => f.functionCode
  | .tcp f => f.functionCode

/-- Modelled from the spec: the missing method `SetData`, which replaces the payload only.
The argument is a Go slice, `none` being the nil slice, whose length is 0. -/
def Framer.SetData (frame : Framer) (data : Option (List Nat)) : Framer :=
  match frame with
  | .rtu f => .rtu { f with data := data.getD [] }
  | .tcp f => .tcp { f with data := data.getD [] }

/-- Modelled from the spec: the missing method `SetException`, which sets the high bit of
the function code and writes the exception byte as the new payload.  The argument
is a pointer (as the interface declares it); dereferencing nil faults. -/
def Framer.SetException (frame : Framer) (exception : ExceptionPtr) : Option Framer :=
  match exception.deref with
  | none => none
  | some e =>
    match frame with
    | .rtu f => some (.rtu { f with functionCode := f.functionCode ||| 0x80, data := [e] })
    | .tcp f => some (.tcp { f with functionCode := f.functionCode ||| 0x80, data := [e] })

/-! ## Go primitives used by `frame.go` -/

/-- The slice expression `data[lo:hi]` on a slice whose capacity is its length;
`none` is the out-of-range fault. -/
def slice (data : List Nat) (lo hi : Nat) : Option (List Nat) :=
  if lo ≤ hi ∧ hi ≤ data.length then some ((data.drop lo).take (hi - lo)) else none

/-- The library call `binary.BigEndian.Uint16(b)`, which is
`uint16(b[1]) | uint16(b[0])<<8`. -/
def BigEndian.Uint16 (b : List Nat) : Option Nat :=
  match b with
  | b0 :: b1 :: _ => some ((b1 ||| (b0 <<< 8)) % 65536)
  | _ => none

/-- The call `binary.BigEndian.PutUint16(data[off:off+2], v)` writing through the
sub-slice into `data`: `data[off] = byte(v >> 8)` and `data[off+1] = byte(v)`.
Every caller passes a `data` of at least `off + 2` bytes. -/
def BigEndian.PutUint16 (data : List Nat) (off : Nat) (v : Nat) : List Nat :=
  (data.set off ((v >>> 8) % 256)).set (off + 1) (v % 256)

/-- The builtin `make([]byte, n)`: `n` zero bytes. -/
def make (n : Nat) : List Nat := List.replicate n 0

/-- The builtin `copy(dst, src)`, returning the new contents of `dst`: the first
`min(len(dst), len(src))` elements are taken from `src`. -/
def copy (dst src : List Nat) : List Nat :=
  src.take dst.length ++ dst.drop src.length

/-- Modelled from the spec: the missing helper `Uint16ToBytes`, which lays out each 16-bit
value as two bytes, big-endian, in order. -/
def Uint16ToBytes : List Nat → List Nat
  | [] => []
  | v :: rest => (v >>> 8) % 256 :: v % 256 :: Uint16ToBytes rest

/-! ## `frame.go` -/

/-- The function `GetException` of `frame.go`; `none` is the index fault of
`frame.GetData()[0]` on an empty payload. -/
def GetException (frame : Framer) : Option Exception :=
  let function := frame.GetFunction
  if (function &&& 0x80) ≠ 0 then
    frame.GetData.head?
  else
    some Success

/-- The function `RegisterAddressAndNumber` of `frame.go`; `none` is the slice
fault on a payload shorter than 4 bytes. -/
def RegisterAddressAndNumber (frame : Framer) : Option (Int × Int × Int) := do
  let data := frame.GetData
  let register : Int := ((← BigEndian.Uint16 (← slice data 0 2)) : Nat)
  let numRegs : Int := ((← BigEndian.Uint16 (← slice data 2 4)) : Nat)
  let endRegister := register + numRegs
  return (register, numRegs, endRegister)

/-- The function `RegisterAddressAndValue` of `frame.go`, returning an `int` and a
`uint16`. -/
def RegisterAddressAndValue (frame : Framer) : Option (Int × Nat) := do
  let data := frame.GetData
  let register : Int := ((← BigEndian.Uint16 (← slice data 0 2)) : Nat)
  let value ← BigEndian.Uint16 (← slice data 2 4)
  return (register, value)

/-- The function `SetDataWithRegisterAndNumber` of `frame.go`. -/
def SetDataWithRegisterAndNumber (frame : Framer) (register number : Nat) : Framer :=
  let data := make 4
  let data := BigEndian.PutUint16 data 0 register
  let data := BigEndian.PutUint16 data 2 number
  frame.SetData (some data)

/-- The function `SetDataWithRegisterAndNumberAndValues` of `frame.go`. -/
def SetDataWithRegisterAndNumberAndValues (frame : Framer) (register number : Nat)
    (values : List Nat) : Framer :=
  let data := make (5 + values.length * 2)
  let data := BigEndian.PutUint16 data 0 register
  let data := BigEndian.PutUint16 data 2 number
  let data := data.set 4 ((values.length * 2) % 256)
  let data := data.take 5 ++ copy (data.drop 5) (Uint16ToBytes values)
  frame.SetData (some data)

/-- The function `SetDataWithRegisterAndNumberAndBytes` of `frame.go`. -/
def SetDataWithRegisterAndNumberAndBytes (frame : Framer) (register number : Nat)
    (bytes : List Nat) : Framer :=
  let data := make (5 + bytes.length)
  let data := BigEndian.PutUint16 data 0 register
  let data := BigEndian.PutUint16 data 2 number
  let data := data.set 4 (bytes.length % 256)
  let data := data.take 5 ++ copy (data.drop 5) bytes
  frame.SetData (some data)

/-! ## `server.go` -/

/-- The four memory banks of a `Server`; this is the part of the server that the
handlers read and write. -/
structure Memory where
  DiscreteInputs : List Nat
  Coils : List Nat
  HoldingRegisters : List Nat
  InputRegisters : List Nat
  deriving DecidableEq, Repr

/-- What a call of a handler leaves behind: the memory banks after the call and the
two results `([]byte, *Exception)`. -/
structure HandlerResult where
  memory : Memory
  data : Option (List Nat)
  exception : ExceptionPtr
  deriving DecidableEq, Repr

/-- A function value of type `func(*Server, Framer) ([]byte, *Exception)`. -/
abbrev Handler := Memory → Framer → HandlerResult

/-- A channel value: the nil channel, or a channel that was made and is either
still open or closed.  An open channel that has a buffer (the trace sink) may have
it full: `filled`. -/
inductive Chan where
  | nilChan
  | opened
  | closed
  | filled
  deriving DecidableEq, Repr

/-- The struct `Server`.  The map `function` is a partial function on opcodes. -/
structure Server extends Memory where
  Debug : Bool
  slaveId : Nat
  listeners : List Nat
  ports : List Nat
  requestChan : Chan
  function : Nat → Option Handler
  last : List Nat
  outChan : Chan
  closeChan : Chan

/-- The struct `Request`: a connection handle, the frame and the capture time. -/
structure Request where
  conn : Nat
  frame : Framer
  t : Nat
  deriving DecidableEq, Repr

/-- Modelled from the spec: the missing function-code constants, with the numbers the
Modbus standard gives them. -/
def ReadCoils_fc : Nat := 1

/-- Modelled from the spec: see `ReadCoils_fc`. -/
def ReadDiscreteInput_fc : Nat := 2

/-- Modelled from the spec: see `ReadCoils_fc`. -/
def ReadHoldingRegisters_fc : Nat := 3

/-- Modelled from the spec: see `ReadCoils_fc`. -/
def ReadInputRegisters_fc : Nat := 4

/-- Modelled from the spec: see `ReadCoils_fc`. -/
def WriteSingleCoil_fc : Nat := 5

/-- Modelled from the spec: see `ReadCoils_fc`. -/
def WriteHoldingRegister_fc : Nat := 6

/-- Modelled from the spec: see `ReadCoils_fc`. -/
def WriteMultipleCoils_fc : Nat := 15

/-- Modelled from the spec: see `ReadCoils_fc`. -/
def WriteHoldingRegisters_fc : Nat := 16

/-- The eight standard handlers that `NewServer` installs.  Their bodies are not in
the files at hand, so they are a parameter of `NewServer`. -/
structure StandardHandlers where
  ReadCoils : Handler
  ReadDiscreteInputs : Handler
  ReadHoldingRegisters : Handler
  ReadInputRegisters : Handler
  WriteSingleCoil : Handler
  WriteHoldingRegister : Handler
  WriteMultipleCoils : Handler
  WriteHoldingRegisters : Handler

/-- The assignment `m[key] = value` on a map. -/
def mapSet (m : Nat → Option Handler) (key : Nat) (value : Handler) : Nat → Option Handler :=
  fun k => if k = key then some value else m k

/-- The constructor `NewServer` of `server.go`.  The engine goroutine it starts is
not part of the returned value. -/
def NewServer (std : StandardHandlers) (id : Nat) : Except String Server :=
  if id = 0 then
    .error "modbus slave id must not be set to 0"
  else if id > 247 then
    .error "modbus slave id must not be greater than 247"
  else
    let numberDiscreteInputs := 512
    let numberCoils := 512
    let numberHoldingRegisters := 512
    let numberInputRegisers := 512
    let function : Nat → Option Handler := fun _ => none
    let function := mapSet function ReadCoils_fc std.ReadCoils
    let function := mapSet function ReadDiscreteInput_fc std.ReadDiscreteInputs
    let function := mapSet function ReadHoldingRegisters_fc std.ReadHoldingRegisters
    let function := mapSet function ReadInputRegisters_fc std.ReadInputRegisters
    let function := mapSet function WriteSingleCoil_fc std.WriteSingleCoil
    let function := mapSet function WriteHoldingRegister_fc std.WriteHoldingRegister
    let function := mapSet function WriteMultipleCoils_fc std.WriteMultipleCoils
    let function := mapSet function WriteHoldingRegisters_fc std.WriteHoldingRegisters
    .ok {
      Debug := false
      slaveId := id
      listeners := []
      ports := []
      requestChan := .opened
      function := function
      DiscreteInputs := make numberDiscreteInputs
      Coils := make numberCoils
      HoldingRegisters := make (numberHoldingRegisters * 2)
      InputRegisters := make (numberInputRegisers * 2)
      last := []
      outChan := .nilChan
      closeChan := .nilChan }

/-- The method `RegisterFunctionHandler` of `server.go`. -/
def Server.RegisterFunctionHandler (s : Server) (funcCode : Nat) (function : Handler) : Server :=
  { s with function := mapSet s.function funcCode function }

/-- The method `handle` of `server.go`.  It returns the server as the handler left
it together with the response frame; `none` is the fault of `SetException` on a
nil exception pointer. -/
def Server.handle (s : Server) (request : Request) : Option (Server × Framer) :=
  let response := request.frame.Copy
  let function := request.frame.GetFunction
  let (s, response, exception) :=
    match s.function function with
    | some h =>
      let r := h s.toMemory request.frame
      ({ s with toMemory := r.memory }, response.SetData r.data, r.exception)
    | none =>
      (s, response, ExceptionPtr.var IllegalFunction)
  if exception ≠ ExceptionPtr.addrSuccess then
    match response.SetException exception with
    | some response => some (s, response)
    | none => none
  else
    some (s, response)

/-- Modelled from the spec: the missing method `GetAddress`, the unit (slave) address of
the frame. -/
def Framer.GetAddress : Framer → Nat
  | .rtu f => f.address
  | .tcp f => f.address

/-- The method `ListenRequests` of `server.go`: a trace sink is made and stored. -/
def Server.ListenRequests (s : Server) : Server :=
  { s with outChan := .opened }

/-- The method `Close` of `server.go`: `closeChan` is made and closed, then `Close` is
called on every listener and every port.  The result is the server afterwards and
the handles that were closed, in order. -/
def Server.Close (s : Server) : Server × List Nat :=
  let s := { s with closeChan := .opened }
  let s := { s with closeChan := .closed }
  (s, s.listeners ++ s.ports)

/-- What the engine loop needs from outside the files at hand: the missing method
`Bytes` (the wire encoding of a frame), the missing function `functionCodeToString`
and the text `time.String()` gives for a time. -/
structure Env where
  Bytes : Framer → List Nat
  functionCodeToString : Nat → String
  timeString : Nat → String

/-- The library call `hex.EncodeToString(bytes)`: two lower-case hexadecimal digits
for each byte. -/
def hexEncodeToString : List Nat → List Char
  | [] => []
  | b :: rest => Nat.digitChar (b / 16) :: Nat.digitChar (b % 16) :: hexEncodeToString rest

/-- The loop `for i := 0; i < len(bytes_str); i += 2 { msg = msg + " " +
bytes_str[i:i+2] }` of `frameToString`, giving what it appends to `msg`; the text it
runs over has an even length. -/
def spacedPairs : List Char → String
  | a :: b :: rest => " " ++ String.mk [a, b] ++ spacedPairs rest
  | _ => ""

/-- The function `frameToString` of `frame.go`; `none` is the fault of
`RegisterAddressAndNumber` on a frame whose function code is one of the three of
the `switch` and whose payload is too short. -/
def frameToString (env : Env) (frame : Framer) (time : Nat) : Option String :=
  let msg := "\nTime : " ++ env.timeString time
  let msg := msg ++ "\nBytes : "
  let bytes_str := hexEncodeToString (env.Bytes frame)
  let msg := msg ++ spacedPairs bytes_str
  let functi := frame.GetFunction
  let address := frame.GetAddress
  let msg := msg ++ "\nFunctionCode : " ++ toString functi
  let msg := msg ++ "\nFunctionName : " ++ env.functionCodeToString functi
  let msg := msg ++ "\nAddress : " ++ toString address
  let msg :=
    match frame with
    | .rtu rtuFrame => msg ++ "\nRTUFrame" ++ "\nCRC : " ++ toString rtuFrame.crc
    | .tcp tcpFrame =>
      msg ++ "\nTCPFrame" ++
        "\nTransactionIdentifier : " ++ toString tcpFrame.transactionIdentifier ++
        "\nProtocolIdentifier : " ++ toString tcpFrame.protocolIdentifier ++
        "\nLength : " ++ toString tcpFrame.length
  if functi = ReadDiscreteInput_fc ∨ functi = ReadHoldingRegisters_fc ∨
      functi = ReadInputRegisters_fc then
    match RegisterAddressAndNumber frame with
    | none => none
    | some (register, numRegs, _) =>
      some (msg ++ "\nStart-Register  " ++ toString register ++
        "\nNumber of Registers  " ++ toString numRegs)
  else
    some msg

/-- One request taken from `requestChan`, together with what the surroundings
decide while it is served: the reading of `time.Now()` for the response trace,
whether `conn.Write` reports an error, and how many strings the reader of the trace
sink takes from it in that time. -/
structure Arrival where
  request : Request
  now : Nat
  writeFails : Bool
  sinkReads : Nat
  deriving DecidableEq, Repr

/-- What the engine loop does to the world outside the server value: a completed
send on `outChan`, a `conn.Write` (with its outcome), the closing of `outChan`. -/
inductive Effect where
  | send (msg : String)
  | write (conn : Nat) (bytes : List Nat) (failed : Bool)
  | closeOut
  deriving DecidableEq, Repr

/-- The states of the engine loop: in the `for` loop and waiting in the receive
(`Running`), returned (`Closed`), or in the `for` loop and stuck in a send on the
trace sink (`Stalled`). -/
inductive LoopState where
  | Running
  | Closed
  | Stalled
  deriving DecidableEq, Repr

/-- The statement `s.outChan <- msg`.  The sink is made with capacity 1
(`ListenRequests`), and `reads` is the number of strings its reader still takes; the
reader takes a string as soon as one is there.  The result is the server, the reads
left and whether the send completed: a send on a full sink that nobody reads, or on
a nil channel, does not complete.  `none` is the fault of a send on a closed
channel. -/
def Server.send (s : Server) (reads : Nat) : Option (Server × Nat × Bool) :=
  match s.outChan, reads with
  | .closed, _ => none
  | .nilChan, _ => some (s, reads, false)
  | .opened, 0 => some ({ s with outChan := .filled }, 0, true)
  | .opened, r + 1 => some (s, r, true)
  | .filled, 0 => some (s, 0, false)
  | .filled, 1 => some (s, 0, true)
  | .filled, r + 2 => some ({ s with outChan := .opened }, r, true)

/-- The block `if s.Debug { if s.outChan != nil { s.outChan <- title; s.outChan <-
frameToString(frame.Copy(), time) } }`, which `handler` has once before and once
after `handle`.  The result is the server, the sends that completed, the reads left
and whether the block was passed (`false`: the loop is stuck in one of the two
sends); `none` is a fault. -/
def Server.trace (s : Server) (env : Env) (title : String) (frame : Framer) (time : Nat)
    (reads : Nat) : Option (Server × List Effect × Nat × Bool) :=
  if s.Debug then
    if s.outChan ≠ Chan.nilChan then
      match s.send reads with
      | none => none
      | some (s1, reads1, false) => some (s1, [], reads1, false)
      | some (s1, reads1, true) =>
        match frameToString env frame.Copy time with
        | none => none
        | some text =>
          match s1.send reads1 with
          | none => none
          | some (s2, reads2, false) => some (s2, [.send title], reads2, false)
          | some (s2, reads2, true) => some (s2, [.send title, .send text], reads2, true)
    else
      some (s, [], reads, true)
  else
    some (s, [], reads, true)

/-- The method `handler` of `server.go`, the engine loop, run on the requests that
arrive on `requestChan`.  A receive on a closed channel reports `ok = false` at
once; on an open channel it delivers the next arrival, and blocks (state `Running`)
when there is none; nothing can arrive on a nil channel.  The result is the server,
the effects in order and the state of the loop; `none` is a fault (in `handle`, in a
trace, or in `close(s.outChan)` on a nil or closed channel). -/
def Server.handler (s : Server) (env : Env) :
    List Arrival → Option (Server × List Effect × LoopState)
  | [] =>
    match s.requestChan with
    | .closed =>
      match s.outChan with
      | .opened => some ({ s with outChan := .closed }, [.closeOut], .Closed)
      | .filled => some ({ s with outChan := .closed }, [.closeOut], .Closed)
      | _ => none
    | _ => some (s, [], .Running)
  | a :: rest =>
    match s.requestChan with
    | .closed =>
      match s.outChan with
      | .opened => some ({ s with outChan := .closed }, [.closeOut], .Closed)
      | .filled => some ({ s with outChan := .closed }, [.closeOut], .Closed)
      | _ => none
    | .nilChan => some (s, [], .Running)
    | _ =>
      match s.trace env "<<--Request<<--" a.request.frame a.request.t a.sinkReads with
      | none => none
      | some (s0, before, _, false) => some (s0, before, .Stalled)
      | some (s0, before, reads, true) =>
        match s0.handle a.request with
        | none => none
        | some (s1, response) =>
          match s1.trace env "-->>Response-->>" response a.now reads with
          | none => none
          | some (s2, after, _, false) => some (s2, before ++ after, .Stalled)
          | some (s2, after, _, true) =>
            match s2.handler env rest with
            | none => none
            | some (s3, effects, state) =>
              some (s3,
                before ++ after ++
                  [.write a.request.conn (env.Bytes response) a.writeFails] ++ effects,
                state)

/-- In the words of the spec: the requests are processed in the order in which they
were submitted, each `handle` call on the server state the previous one left.  The
result is the last state and the responses in order. -/
def Server.handleInOrder (s : Server) : List Request → Option (Server × List Framer)
  | [] => some (s, [])
  | request :: rest =>
    match s.handle request with
    | none => none
    | some (s1, response) =>
      match s1.handleInOrder rest with
      | none => none
      | some (s2, responses) => some (s2, response :: responses)

/-- The writes among the effects: connection and bytes, in order. -/
def writesOf : List Effect → List (Nat × List Nat)
  | [] => []
  | .write conn bytes _ :: rest => (conn, bytes) :: writesOf rest
  | _ :: rest => writesOf rest

/-! ## Sample values

Concrete handlers, servers and requests at which the theorems below are
instantiated. -/

/-- A handler that answers with the request payload and `&Success`. -/
def echoHandler : Handler := fun m frame => ⟨m, some frame.GetData, .addrSuccess⟩

/-- A handler that answers with one byte of data and the address of an exception
variable holding `code`. -/
def rejectHandler (code : Exception) : Handler := fun m _ => ⟨m, some [9], .var code⟩

/-- A handler that answers with the nil slice and `&Success`. -/
def silentHandler : Handler := fun m _ => ⟨m, none, .addrSuccess⟩

/-- Eight copies of `echoHandler` standing for the standard handlers. -/
def sampleStandardHandlers : StandardHandlers :=
  ⟨echoHandler, echoHandler, echoHandler, echoHandler,
   echoHandler, echoHandler, echoHandler, echoHandler⟩

/-- A server with four banks of four bytes whose table holds `echoHandler` at
opcode 65, `rejectHandler 4` at opcode 66 and `silentHandler` at opcode 67. -/
def sampleServer : Server where
  DiscreteInputs := make 4
  Coils := make 4
  HoldingRegisters := make 4
  InputRegisters := make 4
  Debug := false
  slaveId := 1
  listeners := []
  ports := []
  requestChan := .opened
  function := mapSet (mapSet (mapSet (fun _ => none) 65 echoHandler) 66 (rejectHandler 4))
    67 silentHandler
  last := []
  outChan := .nilChan
  closeChan := .nilChan

/-- An RTU request for opcode `fc` with the payload `[0, 10, 0, 1]`. -/
def sampleRequest (fc : Nat) : Request := ⟨0, .rtu ⟨1, fc, [0, 10, 0, 1], 0⟩, 0⟩

/-- A TCP frame with the payload `data`. -/
def sampleFrame (data : List Nat) : Framer := .tcp ⟨7, 0, 2 + data.length, 1, 3, data⟩

/-- An environment whose wire bytes are the function code followed by the payload,
with constant texts for function names and times. -/
def sampleEnv : Env :=
  ⟨fun frame => frame.GetFunction :: frame.GetData, fun _ => "name", fun _ => "time"⟩

/-- Three arrivals for the opcodes 65, 3 and 66 on the connections 5, 6 and 7; the
write for the second one fails and the reader of the trace sink takes every trace. -/
def sampleArrivals : List Arrival :=
  [⟨⟨5, (sampleRequest 65).frame, 10⟩, 11, false, 4⟩,
   ⟨⟨6, (sampleRequest 3).frame, 20⟩, 21, true, 5⟩,
   ⟨⟨7, (sampleRequest 66).frame, 30⟩, 31, false, 4⟩]

/-- One arrival for the opcode 65 on the connection 5 while nobody reads the trace
sink. -/
def unreadArrivals : List Arrival :=
  [⟨⟨5, (sampleRequest 65).frame, 10⟩, 11, false, 0⟩]

/-- A handler that answers with the three bytes `[2, 18, 52]` and `&Success`. -/
def answerHandler : Handler := fun m _ => ⟨m, some [2, 18, 52], .addrSuccess⟩

/-- A handler that answers with one byte of data and the nil exception pointer. -/
def nilExceptionHandler : Handler := fun m _ => ⟨m, some [9], .null⟩

/-- One arrival for the opcode `fc` on the connection 5 while the reader of the trace
sink takes every trace. -/
def readArrival (fc : Nat) : List Arrival :=
  [⟨⟨5, (sampleRequest fc).frame, 10⟩, 11, false, 4⟩]

/-- The server `sampleServer` with tracing switched on and a trace sink. -/
def sampleTracingServer : Server := { sampleServer.ListenRequests with Debug := true }

/-! ## Auxiliary facts -/

theorem lor_0x80_land_0x80 (x : Nat) : (x ||| 0x80) &&& 0x80 = 0x80 := by
  apply Nat.eq_of_testBit_eq
  intro i
  simp only [Nat.testBit_and, Nat.testBit_or]
  cases h : Nat.testBit 128 i <;> simp [h]

theorem getFunction_setData (frame : Framer) (data : Option (List Nat)) :
    (frame.SetData data).GetFunction = frame.GetFunction := by
  cases frame <;> rfl

theorem getData_setData (frame : Framer) (data : Option (List Nat)) :
    (frame.SetData data).GetData = data.getD [] := by
  cases frame <;> rfl

theorem setException_eq_some (frame response : Framer) (exception : ExceptionPtr)
    (h : frame.SetException exception = some response) :
    ∃ e, exception.deref = some e ∧
      response.GetFunction = frame.GetFunction ||| 0x80 ∧ response.GetData = [e] := by
  unfold Framer.SetException at h
  cases hd : exception.deref with
  | none => simp [hd] at h
  | some e =>
    refine ⟨e, rfl, ?_⟩
    cases frame <;> simp [hd] at h <;> subst h <;> exact ⟨rfl, rfl⟩

theorem setException_of_deref (frame : Framer) (exception : ExceptionPtr) (e : Exception)
    (h : exception.deref = some e) :
    ∃ response, frame.SetException exception = some response ∧
      response.GetFunction = frame.GetFunction ||| 0x80 ∧ response.GetData = [e] := by
  unfold Framer.SetException
  cases frame <;> simp [h] <;> exact ⟨rfl, rfl⟩

theorem uint16_of_bytes (b0 b1 : Nat) (h1 : b1 < 256) :
    b1 ||| (b0 <<< 8) = 256 * b0 + b1 := by
  have h := Nat.mul_add_lt_is_or (show b1 < 2 ^ 8 by simpa using h1) b0
  rw [Nat.or_comm, Nat.shiftLeft_eq, Nat.mul_comm b0 (2 ^ 8), ← h]

theorem length_ge_four (data : List Nat) (h : 4 ≤ data.length) :
    ∃ a b c d rest, data = a :: b :: c :: d :: rest := by
  match data, h with
  | a :: b :: c :: d :: rest, _ => exact ⟨a, b, c, d, rest, rfl⟩

theorem registerAddressAndNumber_cons (frame : Framer) (a b c d : Nat) (rest : List Nat)
    (hdata : frame.GetData = a :: b :: c :: d :: rest) :
    RegisterAddressAndNumber frame =
      some ((((b ||| (a <<< 8)) % 65536 : Nat) : Int), (((d ||| (c <<< 8)) % 65536 : Nat) : Int),
        (((b ||| (a <<< 8)) % 65536 : Nat) : Int) + (((d ||| (c <<< 8)) % 65536 : Nat) : Int)) := by
  simp [RegisterAddressAndNumber, hdata, slice, BigEndian.Uint16]

theorem registerAddressAndValue_cons (frame : Framer) (a b c d : Nat) (rest : List Nat)
    (hdata : frame.GetData = a :: b :: c :: d :: rest) :
    RegisterAddressAndValue frame =
      some ((((b ||| (a <<< 8)) % 65536 : Nat) : Int), (d ||| (c <<< 8)) % 65536) := by
  simp [RegisterAddressAndValue, hdata, slice, BigEndian.Uint16]

theorem uint16ToBytes_length (values : List Nat) :
    (Uint16ToBytes values).length = values.length * 2 := by
  induction values with
  | nil => rfl
  | cons v rest ih => simp [Uint16ToBytes, ih]; omega

theorem uint16ToBytes_getElem (values : List Nat) (i v : Nat) (h : values[i]? = some v) :
    (Uint16ToBytes values)[2 * i]? = some ((v >>> 8) % 256) ∧
    (Uint16ToBytes values)[2 * i + 1]? = some (v % 256) := by
  induction values generalizing i with
  | nil => simp at h
  | cons w rest ih =>
    cases i with
    | zero =>
      simp at h
      subst h
      simp [Uint16ToBytes]
    | succ j =>
      simp at h
      have hj := ih j h
      have e1 : 2 * (j + 1) = (2 * j + 1) + 1 := by omega
      rw [e1]
      simpa [Uint16ToBytes] using hj

theorem copy_same_length (dst src : List Nat) (h : dst.length = src.length) :
    copy dst src = src := by
  simp [copy, h]

theorem header_with_tail (register number count k : Nat) (tail : List Nat)
    (hk : tail.length = k) :
    (((BigEndian.PutUint16 (BigEndian.PutUint16 (make (5 + k)) 0 register) 2 number).set 4
        count).take 5 ++
      copy (((BigEndian.PutUint16 (BigEndian.PutUint16 (make (5 + k)) 0 register) 2 number).set 4
        count).drop 5) tail) =
    (register >>> 8) % 256 :: register % 256 :: (number >>> 8) % 256 :: number % 256 ::
      count :: tail := by
  have hmake : make (5 + k) = 0 :: 0 :: 0 :: 0 :: 0 :: List.replicate k 0 := by
    rw [Nat.add_comm]; simp [make, List.replicate_succ]
  rw [hmake]
  simp only [BigEndian.PutUint16, List.set_cons_zero, List.set_cons_succ, List.take_succ_cons,
    List.take_zero, List.drop_succ_cons, List.drop_zero]
  rw [copy_same_length _ _ (by simp [hk])]
  rfl

theorem setDataWithRegisterAndNumberAndValues_payload (frame : Framer)
    (register number : Nat) (values : List Nat) :
    (SetDataWithRegisterAndNumberAndValues frame register number values).GetData =
      (register >>> 8) % 256 :: register % 256 :: (number >>> 8) % 256 :: number % 256 ::
        (values.length * 2) % 256 :: Uint16ToBytes values := by
  unfold SetDataWithRegisterAndNumberAndValues
  simp only [getData_setData, Option.getD_some]
  exact header_with_tail register number _ (values.length * 2) (Uint16ToBytes values)
    (uint16ToBytes_length values)

theorem setDataWithRegisterAndNumberAndBytes_payload (frame : Framer)
    (register number : Nat) (bytes : List Nat) :
    (SetDataWithRegisterAndNumberAndBytes frame register number bytes).GetData =
      (register >>> 8) % 256 :: register % 256 :: (number >>> 8) % 256 :: number % 256 ::
        bytes.length % 256 :: bytes := by
  unfold SetDataWithRegisterAndNumberAndBytes
  simp only [getData_setData, Option.getD_some]
  exact header_with_tail register number _ bytes.length bytes rfl

theorem getElem?_four (a b c d e : Nat) (rest : List Nat) :
    (a :: b :: c :: d :: e :: rest)[4]? = some e := by simp

theorem uint16_high_byte (v : Nat) (h : v < 65536) : (v >>> 8) % 256 = v / 256 := by
  rw [Nat.shiftRight_eq_div_pow]
  have : v / 2 ^ 8 < 256 := by
    rw [Nat.div_lt_iff_lt_mul (by norm_num)]; omega
  omega

theorem uint16_round_trip (v : Nat) (h : v < 65536) :
    ((v % 256) ||| (((v >>> 8) % 256) <<< 8)) % 65536 = v := by
  rw [uint16_of_bytes _ _ (Nat.mod_lt v (by norm_num)), uint16_high_byte v h]
  omega

theorem setDataWithRegisterAndNumber_payload (frame : Framer) (register number : Nat) :
    (SetDataWithRegisterAndNumber frame register number).GetData =
      [(register >>> 8) % 256, register % 256, (number >>> 8) % 256, number % 256] := by
  unfold SetDataWithRegisterAndNumber
  simp only [getData_setData, Option.getD_some]
  simp [make, BigEndian.PutUint16, List.replicate]

theorem getAddress_setData (frame : Framer) (data : Option (List Nat)) :
    (frame.SetData data).GetAddress = frame.GetAddress := by
  cases frame <;> rfl

theorem setData_setData (frame : Framer) (first second : Option (List Nat)) :
    (frame.SetData first).SetData second = frame.SetData second := by
  cases frame <;> rfl

theorem registerAddressAndNumber_of_header (frame : Framer) (register number : Nat)
    (rest : List Nat) (hreg : register < 65536) (hnum : number < 65536)
    (hdata : frame.GetData =
      (register >>> 8) % 256 :: register % 256 :: (number >>> 8) % 256 :: number % 256 :: rest) :
    RegisterAddressAndNumber frame =
      some ((register : Int), (number : Int), (register : Int) + (number : Int)) := by
  rw [registerAddressAndNumber_cons frame _ _ _ _ rest hdata,
    uint16_round_trip register hreg, uint16_round_trip number hnum]

theorem land_0x80_of_lt (x : Nat) (h : x < 0x80) : x &&& 0x80 = 0 := by
  apply Nat.eq_of_testBit_eq
  intro i
  rw [Nat.testBit_and, Nat.zero_testBit]
  by_cases hi : i = 7
  · subst hi
    have : x.testBit 7 = false := Nat.testBit_lt_two_pow (by simpa using h)
    simp [this]
  · have : Nat.testBit 128 i = false := by
      have h128 : (128 : Nat) = 2 ^ 7 := by norm_num
      rw [h128, Nat.testBit_two_pow]
      simpa using fun h => hi h.symm
    simp [this]

theorem getException_of_exception_response (frame : Framer) (fc e : Nat)
    (hfn : frame.GetFunction = fc ||| 0x80) (hdata : frame.GetData = [e]) :
    GetException frame = some e := by
  unfold GetException
  simp [hfn, lor_0x80_land_0x80, hdata]

theorem writesOf_append (first second : List Effect) :
    writesOf (first ++ second) = writesOf first ++ writesOf second := by
  induction first with
  | nil => rfl
  | cons e rest ih => cases e <;> simp [writesOf, ih]

theorem handle_returns (s : Server) (request : Request)
    (hexc : ∀ k h m frame, s.function k = some h → (h m frame).exception ≠ ExceptionPtr.null) :
    ∃ s1 response, s.handle request = some (s1, response) ∧
      s1.function = s.function ∧ s1.Debug = s.Debug ∧ s1.outChan = s.outChan ∧
      s1.requestChan = s.requestChan := by
  cases hreg : s.function request.frame.GetFunction with
  | none =>
    obtain ⟨response, hset, _, _⟩ :=
      setException_of_deref request.frame.Copy (.var IllegalFunction) IllegalFunction rfl
    exact ⟨s, response, by simp [Server.handle, hreg, hset], rfl, rfl, rfl, rfl⟩
  | some h =>
    have hnull := hexc _ h s.toMemory request.frame hreg
    cases hptr : (h s.toMemory request.frame).exception with
    | null => exact absurd hptr hnull
    | addrSuccess =>
      exact ⟨{ s with toMemory := (h s.toMemory request.frame).memory },
        request.frame.Copy.SetData (h s.toMemory request.frame).data,
        by simp [Server.handle, hreg, hptr], rfl, rfl, rfl, rfl⟩
    | var code =>
      obtain ⟨response, hset, _, _⟩ :=
        setException_of_deref (request.frame.Copy.SetData (h s.toMemory request.frame).data)
          (.var code) code rfl
      exact ⟨{ s with toMemory := (h s.toMemory request.frame).memory }, response,
        by simp [Server.handle, hreg, hptr, hset], rfl, rfl, rfl, rfl⟩

theorem handle_preserves (s s1 : Server) (request : Request) (response : Framer)
    (h : s.handle request = some (s1, response)) :
    s1.function = s.function ∧ s1.Debug = s.Debug ∧ s1.outChan = s.outChan ∧
      s1.requestChan = s.requestChan := by
  unfold Server.handle at h
  cases hreg : s.function request.frame.GetFunction with
  | none =>
    simp only [hreg] at h
    split at h
    · split at h
      · simp only [Option.some.injEq, Prod.mk.injEq] at h
        obtain ⟨rfl, _⟩ := h
        exact ⟨rfl, rfl, rfl, rfl⟩
      · exact absurd h (by simp)
    · simp only [Option.some.injEq, Prod.mk.injEq] at h
      obtain ⟨rfl, _⟩ := h
      exact ⟨rfl, rfl, rfl, rfl⟩
  | some hd =>
    simp only [hreg] at h
    split at h
    · split at h
      · simp only [Option.some.injEq, Prod.mk.injEq] at h
        obtain ⟨rfl, _⟩ := h
        exact ⟨rfl, rfl, rfl, rfl⟩
      · exact absurd h (by simp)
    · simp only [Option.some.injEq, Prod.mk.injEq] at h
      obtain ⟨rfl, _⟩ := h
      exact ⟨rfl, rfl, rfl, rfl⟩

theorem handleInOrder_returns (s : Server) (requests : List Request)
    (hexc : ∀ k h m frame, s.function k = some h → (h m frame).exception ≠ ExceptionPtr.null) :
    ∃ last responses, s.handleInOrder requests = some (last, responses) := by
  induction requests generalizing s with
  | nil => exact ⟨s, [], rfl⟩
  | cons request rest ih =>
    obtain ⟨s1, response, hhandle, hfun, _, _, _⟩ := handle_returns s request hexc
    obtain ⟨last, responses, hrest⟩ := ih s1 (by rw [hfun]; exact hexc)
    exact ⟨last, response :: responses, by simp [Server.handleInOrder, hhandle, hrest]⟩

theorem frameToString_returns (env : Env) (frame : Framer) (time : Nat)
    (hlen : frame.GetFunction = ReadDiscreteInput_fc ∨
        frame.GetFunction = ReadHoldingRegisters_fc ∨
        frame.GetFunction = ReadInputRegisters_fc → 4 ≤ frame.GetData.length) :
    frameToString env frame time ≠ none := by
  unfold frameToString
  by_cases hfc : frame.GetFunction = ReadDiscreteInput_fc ∨
      frame.GetFunction = ReadHoldingRegisters_fc ∨ frame.GetFunction = ReadInputRegisters_fc
  · obtain ⟨a, b, c, d, rest, hdata⟩ := length_ge_four frame.GetData (hlen hfc)
    simp only [hfc, if_true]
    rw [registerAddressAndNumber_cons frame a b c d rest hdata]
    simp
  · simp only [hfc, if_false]
    simp

theorem trace_passes (s : Server) (env : Env) (title : String) (frame : Framer)
    (time reads : Nat)
    (htrace : s.Debug = true → s.outChan ≠ Chan.nilChan →
      s.outChan = Chan.opened ∧ 2 ≤ reads ∧ frameToString env frame time ≠ none) :
    ∃ sends left, s.trace env title frame time reads = some (s, sends, left, true) ∧
      writesOf sends = [] ∧ reads ≤ left + 2 := by
  unfold Server.trace
  by_cases hdebug : s.Debug = true
  · by_cases hsink : s.outChan = Chan.nilChan
    · exact ⟨[], reads, by simp [hdebug, hsink], rfl, by omega⟩
    · obtain ⟨hopened, hreads, htext⟩ := htrace hdebug hsink
      obtain ⟨r, rfl⟩ : ∃ r, reads = r + 2 := ⟨reads - 2, by omega⟩
      cases htxt : frameToString env frame.Copy time with
      | none => exact absurd htxt htext
      | some text =>
        refine ⟨[.send title, .send text], r, ?_, rfl, by omega⟩
        simp [hdebug, hopened, Server.send, htxt]
  · exact ⟨[], reads, by simp [hdebug], rfl, by omega⟩

theorem handler_follows_run (s : Server) (env : Env) (arrivals : List Arrival)
    (last : Server) (responses : List Framer)
    (hopen : s.requestChan = Chan.opened)
    (hrun : s.handleInOrder (arrivals.map Arrival.request) = some (last, responses))
    (htrace : s.Debug = true → s.outChan ≠ Chan.nilChan →
      s.outChan = Chan.opened ∧
      (∀ a ∈ arrivals, 4 ≤ a.sinkReads ∧
        ∀ time, frameToString env a.request.frame time ≠ none) ∧
      (∀ response ∈ responses, ∀ time, frameToString env response time ≠ none)) :
    ∃ effects,
      s.handler env arrivals = some (last, effects, LoopState.Running) ∧
      responses.length = arrivals.length ∧
      writesOf effects =
        List.zipWith (fun a response => (a.request.conn, env.Bytes response))
          arrivals responses := by
  induction arrivals generalizing s last responses with
  | nil =>
    simp only [List.map_nil, Server.handleInOrder, Option.some.injEq, Prod.mk.injEq] at hrun
    obtain ⟨rfl, rfl⟩ := hrun
    exact ⟨[], by simp [Server.handler, hopen], rfl, rfl⟩
  | cons a rest ih =>
    simp only [List.map_cons, Server.handleInOrder] at hrun
    cases hhandle : s.handle a.request with
    | none => simp [hhandle] at hrun
    | some first =>
      obtain ⟨s1, response⟩ := first
      simp only [hhandle] at hrun
      cases hrest : s1.handleInOrder (rest.map Arrival.request) with
      | none => simp [hrest] at hrun
      | some tail =>
        obtain ⟨last1, responses1⟩ := tail
        simp only [hrest, Option.some.injEq, Prod.mk.injEq] at hrun
        obtain ⟨rfl, rfl⟩ := hrun
        obtain ⟨_, hdebug, hout, hreq⟩ := handle_preserves s s1 a.request response hhandle
        obtain ⟨before, left, hbefore, hwb, hleft⟩ :=
          trace_passes s env "<<--Request<<--" a.request.frame a.request.t a.sinkReads
            (fun hd hs =>
              ⟨(htrace hd hs).1, by
                have := ((htrace hd hs).2.1 a (List.mem_cons_self a rest)).1
                omega,
               ((htrace hd hs).2.1 a (List.mem_cons_self a rest)).2 _⟩)
        obtain ⟨after, _, hafter, hwa, _⟩ :=
          trace_passes s1 env "-->>Response-->>" response a.now left
            (fun hd hs => by
              rw [hdebug] at hd
              rw [hout] at hs
              refine ⟨by rw [hout]; exact (htrace hd hs).1, ?_,
                (htrace hd hs).2.2 response (List.mem_cons_self response responses1) _⟩
              have := ((htrace hd hs).2.1 a (List.mem_cons_self a rest)).1
              omega)
        obtain ⟨effects, hloop, hlen, hwrites⟩ :=
          ih s1 last1 responses1 (by rw [hreq]; exact hopen) hrest
            (fun hd hs => by
              rw [hdebug] at hd
              rw [hout] at hs
              exact ⟨by rw [hout]; exact (htrace hd hs).1,
                fun b hb => (htrace hd hs).2.1 b (List.mem_cons_of_mem a hb),
                fun r hr => (htrace hd hs).2.2 r (List.mem_cons_of_mem response hr)⟩)
        refine ⟨before ++ after ++
            [.write a.request.conn (env.Bytes response) a.writeFails] ++ effects, ?_, ?_, ?_⟩
        · simp [Server.handler, hopen, hbefore, hhandle, hafter, hloop]
        · simp [hlen]
        · simp [writesOf_append, hwb, hwa, writesOf, hwrites]

/-! ## Dispatch: `Server.handle` -/

/-- C1: for a request whose function code is not a key of the dispatch table,
`handle` returns the server as it was (no handler ran) and a response whose function
code is the request's with the high bit 0x80 set and whose payload is exactly the
one byte `[IllegalFunction]`. -/
theorem handle_unregistered_opcode (s : Server) (request : Request)
    (habsent : s.function request.frame.GetFunction = none) :
    ∃ response, s.handle request = some (s, response) ∧
      response.GetFunction = request.frame.GetFunction ||| 0x80 ∧
      response.GetFunction &&& 0x80 = 0x80 ∧
      response.GetData = [IllegalFunction] := by
  obtain ⟨response, hset, hfn, hdata⟩ :=
    setException_of_deref request.frame.Copy (.var IllegalFunction) IllegalFunction rfl
  refine ⟨response, ?_, hfn, ?_, hdata⟩
  · simp [Server.handle, habsent, hset]
  · rw [hfn]; exact lor_0x80_land_0x80 _

theorem handle_unregistered_opcode_witness :
    sampleServer.function (sampleRequest 99).frame.GetFunction = none ∧
    ∃ response, sampleServer.handle (sampleRequest 99) = some (sampleServer, response) ∧
      response.GetFunction = (sampleRequest 99).frame.GetFunction ||| 0x80 ∧
      response.GetFunction &&& 0x80 = 0x80 ∧
      response.GetData = [IllegalFunction] :=
  ⟨rfl, handle_unregistered_opcode sampleServer (sampleRequest 99) rfl⟩

/-- C2: when the opcode has a registered handler and that handler returns a non-nil
exception pointer other than `&Success`, pointing at the code `e` (with any bytes,
nil or not), `handle` returns a response whose function code is the request's
function code OR 0x80 and whose payload is exactly `[e]`; the server carries the
memory the handler left. -/
theorem handle_handler_exception (s : Server) (request : Request) (h : Handler)
    (e : Exception)
    (hreg : s.function request.frame.GetFunction = some h)
    (hne : (h s.toMemory request.frame).exception ≠ ExceptionPtr.addrSuccess)
    (hcode : (h s.toMemory request.frame).exception.deref = some e) :
    ∃ response,
      s.handle request =
        some ({ s with toMemory := (h s.toMemory request.frame).memory }, response) ∧
      response.GetFunction = request.frame.GetFunction ||| 0x80 ∧
      response.GetData = [e] := by
  obtain ⟨response, hset, hfn, hdata⟩ :=
    setException_of_deref (request.frame.Copy.SetData (h s.toMemory request.frame).data)
      (h s.toMemory request.frame).exception e hcode
  refine ⟨response, ?_, ?_, hdata⟩
  · simp [Server.handle, hreg, hne, hset]
  · rw [hfn, getFunction_setData]; rfl

theorem handle_handler_exception_witness :
    ∃ response,
      sampleServer.handle (sampleRequest 66) =
        some ({ sampleServer with
                toMemory := (rejectHandler 4 sampleServer.toMemory (sampleRequest 66).frame).memory },
              response) ∧
      response.GetFunction = (sampleRequest 66).frame.GetFunction ||| 0x80 ∧
      response.GetData = [4] :=
  handle_handler_exception sampleServer (sampleRequest 66) (rejectHandler 4) 4 rfl
    (by decide) rfl

/-- C3, as stated, fails: an exception that is equal to `Success` (code 0) without
being the pointer `&Success` takes the exception path.  With `rejectHandler 0`
registered at opcode 68, which returns the non-nil bytes `[9]` and the address of
another variable holding code 0, the response has function code 196 (68 with the
high bit set) and payload `[0]`, not function code 68 and payload `[9]`. -/
theorem handle_success_code_other_pointer_counterexample :
    ((sampleServer.RegisterFunctionHandler 68 (rejectHandler 0)).function
        (sampleRequest 68).frame.GetFunction = some (rejectHandler 0) ∧
      (rejectHandler 0 sampleServer.toMemory (sampleRequest 68).frame).data = some [9] ∧
      (rejectHandler 0 sampleServer.toMemory (sampleRequest 68).frame).exception.deref =
        some Success ∧
      ((sampleServer.RegisterFunctionHandler 68 (rejectHandler 0)).handle
          (sampleRequest 68)).map Prod.snd = some (.rtu ⟨1, 196, [0], 0⟩)) ∧
    ¬ (∀ (s : Server) (request : Request) (h : Handler) (d : List Nat),
        s.function request.frame.GetFunction = some h →
        (h s.toMemory request.frame).data = some d →
        (h s.toMemory request.frame).exception.deref = some Success →
        ∃ s1 response, s.handle request = some (s1, response) ∧
          response.GetData = d ∧
          response.GetFunction = request.frame.GetFunction) := by
  have hrun : ((sampleServer.RegisterFunctionHandler 68 (rejectHandler 0)).handle
      (sampleRequest 68)).map Prod.snd = some (.rtu ⟨1, 196, [0], 0⟩) := rfl
  refine ⟨⟨rfl, rfl, rfl, hrun⟩, ?_⟩
  intro hclaim
  obtain ⟨s1, response, hhandle, hpayload, _⟩ :=
    hclaim (sampleServer.RegisterFunctionHandler 68 (rejectHandler 0)) (sampleRequest 68)
      (rejectHandler 0) [9] rfl rfl rfl
  rw [hhandle] at hrun
  simp only [Option.map_some', Option.some.injEq] at hrun
  rw [hrun] at hpayload
  exact absurd hpayload (by decide)

/-- C3, amended: when the opcode has a registered handler and that handler returns
non-nil bytes `d` together with the pointer `&Success` itself, `handle` returns a
response whose payload is exactly `d` and whose function code is the request's
function code, unchanged. -/
theorem handle_handler_success (s : Server) (request : Request) (h : Handler)
    (d : List Nat)
    (hreg : s.function request.frame.GetFunction = some h)
    (hdata : (h s.toMemory request.frame).data = some d)
    (hexc : (h s.toMemory request.frame).exception = ExceptionPtr.addrSuccess) :
    ∃ response,
      s.handle request =
        some ({ s with toMemory := (h s.toMemory request.frame).memory }, response) ∧
      response.GetData = d ∧
      response.GetFunction = request.frame.GetFunction := by
  refine ⟨request.frame.Copy.SetData (some d), ?_, ?_, ?_⟩
  · simp [Server.handle, hreg, hdata, hexc]
  · rw [getData_setData]; rfl
  · rw [getFunction_setData]; rfl

theorem handle_handler_success_witness :
    (sampleRequest 68).frame.GetData = [0, 10, 0, 1] ∧
    ∃ response,
      (sampleServer.RegisterFunctionHandler 68 answerHandler).handle (sampleRequest 68) =
        some ({ sampleServer.RegisterFunctionHandler 68 answerHandler with
                toMemory := (answerHandler
                  (sampleServer.RegisterFunctionHandler 68 answerHandler).toMemory
                  (sampleRequest 68).frame).memory },
              response) ∧
      response.GetData = [2, 18, 52] ∧
      response.GetFunction = (sampleRequest 68).frame.GetFunction :=
  ⟨rfl,
   handle_handler_success (sampleServer.RegisterFunctionHandler 68 answerHandler)
    (sampleRequest 68) answerHandler [2, 18, 52] rfl rfl rfl⟩

/-- C4, as stated, fails: a registered handler that returns the nil slice and
`&Success` does not leave the payload of the copied request frame in the response.
At `sampleServer` and opcode 67 the request payload is `[0, 10, 0, 1]` and the
response payload is empty. -/
theorem handle_nil_bytes_keeps_payload_counterexample :
    ¬ (∀ (s : Server) (request : Request) (h : Handler),
        s.function request.frame.GetFunction = some h →
        (h s.toMemory request.frame).data = none →
        (h s.toMemory request.frame).exception = ExceptionPtr.addrSuccess →
        ∃ s1 response, s.handle request = some (s1, response) ∧
          response.GetData = request.frame.Copy.GetData) := by
  intro hclaim
  obtain ⟨s1, response, hrun, hpayload⟩ :=
    hclaim sampleServer (sampleRequest 67) silentHandler rfl rfl rfl
  have hresp : response = (sampleRequest 67).frame.Copy.SetData none := by
    have h2 : sampleServer.handle (sampleRequest 67) =
        some (sampleServer, (sampleRequest 67).frame.Copy.SetData none) := rfl
    rw [h2] at hrun
    simp only [Option.some.injEq, Prod.mk.injEq] at hrun
    exact hrun.2.symm
  rw [hresp] at hpayload
  exact absurd hpayload (by decide)

/-- C4, amended: when the opcode has a registered handler and that handler returns
the nil slice together with `&Success`, `handle` sets the nil slice as the
response's data: the response payload is empty whatever the request payload was,
and the function code is the request's function code. -/
theorem handle_nil_bytes_success (s : Server) (request : Request) (h : Handler)
    (hreg : s.function request.frame.GetFunction = some h)
    (hdata : (h s.toMemory request.frame).data = none)
    (hexc : (h s.toMemory request.frame).exception = ExceptionPtr.addrSuccess) :
    ∃ response,
      s.handle request =
        some ({ s with toMemory := (h s.toMemory request.frame).memory }, response) ∧
      response.GetData = [] ∧
      response.GetFunction = request.frame.GetFunction := by
  refine ⟨request.frame.Copy.SetData none, ?_, ?_, ?_⟩
  · simp [Server.handle, hreg, hdata, hexc]
  · rw [getData_setData]; rfl
  · rw [getFunction_setData]; rfl

theorem handle_nil_bytes_success_witness :
    ∃ response,
      sampleServer.handle (sampleRequest 67) =
        some ({ sampleServer with
                toMemory := (silentHandler sampleServer.toMemory (sampleRequest 67).frame).memory },
              response) ∧
      response.GetData = [] ∧
      response.GetFunction = (sampleRequest 67).frame.GetFunction :=
  handle_nil_bytes_success sampleServer (sampleRequest 67) silentHandler rfl rfl rfl

/-! ## Registration and construction -/

/-- C5: after `RegisterFunctionHandler c h` the dispatch table maps `c` to `h` and
every other opcode as before, and `handle` on a request with function code `c`
returns the response built from the result of `h` alone: the copied request frame
with the bytes of `h` as data, turned into an exception response when `h` did not
return `&Success`. -/
theorem registerFunctionHandler_takes_effect (s : Server) (c : Nat) (h : Handler) :
    (s.RegisterFunctionHandler c h).function c = some h ∧
    (∀ k, k ≠ c → (s.RegisterFunctionHandler c h).function k = s.function k) ∧
    (∀ request : Request, request.frame.GetFunction = c →
      (s.RegisterFunctionHandler c h).handle request =
        if (h s.toMemory request.frame).exception = ExceptionPtr.addrSuccess then
          some ({ s.RegisterFunctionHandler c h with
                  toMemory := (h s.toMemory request.frame).memory },
                request.frame.Copy.SetData (h s.toMemory request.frame).data)
        else
          ((request.frame.Copy.SetData (h s.toMemory request.frame).data).SetException
              (h s.toMemory request.frame).exception).map
            (fun response =>
              ({ s.RegisterFunctionHandler c h with
                 toMemory := (h s.toMemory request.frame).memory }, response))) := by
  refine ⟨?_, ?_, ?_⟩
  · simp [Server.RegisterFunctionHandler, mapSet]
  · intro k hk
    simp [Server.RegisterFunctionHandler, mapSet, hk]
  · intro request hfc
    have hreg : (s.RegisterFunctionHandler c h).function request.frame.GetFunction = some h := by
      simp [Server.RegisterFunctionHandler, mapSet, hfc]
    have hmem : (s.RegisterFunctionHandler c h).toMemory = s.toMemory := rfl
    unfold Server.handle
    simp only [hreg, hmem]
    by_cases hexc : (h s.toMemory request.frame).exception = ExceptionPtr.addrSuccess
    · simp [hexc]
    · simp only [hexc, ne_eq, not_false_eq_true, if_true, if_false]
      cases (request.frame.Copy.SetData (h s.toMemory request.frame).data).SetException
        (h s.toMemory request.frame).exception <;> rfl

theorem registerFunctionHandler_takes_effect_witness :
    (sampleServer.RegisterFunctionHandler 65 (rejectHandler 2)).function 65 =
      some (rejectHandler 2) ∧
    (sampleServer.RegisterFunctionHandler 65 (rejectHandler 2)).function 66 =
      sampleServer.function 66 ∧
    ((sampleServer.RegisterFunctionHandler 65 (rejectHandler 2)).handle (sampleRequest 65)).map
      Prod.snd = some (.rtu ⟨1, 193, [2], 0⟩) :=
  ⟨(registerFunctionHandler_takes_effect sampleServer 65 (rejectHandler 2)).1,
   (registerFunctionHandler_takes_effect sampleServer 65 (rejectHandler 2)).2.1 66 (by decide),
   by rw [(registerFunctionHandler_takes_effect sampleServer 65 (rejectHandler 2)).2.2
        (sampleRequest 65) rfl]; rfl⟩

/-- C6: `NewServer id` returns an error exactly when `id = 0` or `id > 247`; for
every `id` from 1 to 247 it returns a server whose slave identifier is `id`.  In
particular it fails at 0 and at 248 and succeeds at 247. -/
theorem newServer_validates_id (std : StandardHandlers) (id : Nat) :
    ((∃ msg, NewServer std id = .error msg) ↔ (id = 0 ∨ id > 247)) ∧
    (1 ≤ id ∧ id ≤ 247 → ∃ s, NewServer std id = .ok s ∧ s.slaveId = id) ∧
    (∃ msg, NewServer std 0 = .error msg) ∧
    (∃ msg, NewServer std 248 = .error msg) ∧
    (∃ s, NewServer std 247 = .ok s ∧ s.slaveId = 247) := by
  refine ⟨?_, ?_, ⟨_, rfl⟩, ⟨_, rfl⟩, ⟨_, rfl, rfl⟩⟩
  · constructor
    · rintro ⟨msg, hmsg⟩
      by_contra hcon
      have h0 : ¬ id = 0 := fun h => hcon (Or.inl h)
      have h1 : ¬ id > 247 := fun h => hcon (Or.inr h)
      simp [NewServer, h0, h1] at hmsg
    · rintro (h0 | h1)
      · exact ⟨"modbus slave id must not be set to 0", by simp [NewServer, h0]⟩
      · have h0 : ¬ id = 0 := by omega
        exact ⟨"modbus slave id must not be greater than 247", by simp [NewServer, h0, h1]⟩
  · rintro ⟨hlo, hhi⟩
    have h0 : ¬ id = 0 := by omega
    have h1 : ¬ id > 247 := by omega
    simp [NewServer, h0, h1]

theorem newServer_validates_id_witness :
    (∃ s, NewServer sampleStandardHandlers 100 = .ok s ∧ s.slaveId = 100) ∧
    ((∃ msg, NewServer sampleStandardHandlers 250 = .error msg) ↔ (250 = 0 ∨ 250 > 247)) :=
  ⟨(newServer_validates_id sampleStandardHandlers 100).2.1 ⟨by decide, by decide⟩,
   (newServer_validates_id sampleStandardHandlers 250).1⟩

/-! ## Payload readers -/

/-- C7: on a frame whose payload has at least 4 bytes, `RegisterAddressAndNumber`
returns `register = 256 * data[0] + data[1]`, `count = 256 * data[2] + data[3]` and
`endRegister = register + count` as an exact integer sum, between 0 and 131070; the
result is the same for every frame with the same first four payload bytes.  The
function only reads the frame (it is a function of the frame's payload). -/
theorem registerAddressAndNumber_reads_big_endian (frame : Framer)
    (hlen : 4 ≤ frame.GetData.length)
    (hbytes : ∀ b ∈ frame.GetData, b < 256) :
    ∃ register numRegs endRegister : Int,
      RegisterAddressAndNumber frame = some (register, numRegs, endRegister) ∧
      register = 256 * (frame.GetData.getD 0 0 : Int) + (frame.GetData.getD 1 0 : Int) ∧
      numRegs = 256 * (frame.GetData.getD 2 0 : Int) + (frame.GetData.getD 3 0 : Int) ∧
      endRegister = register + numRegs ∧
      0 ≤ endRegister ∧ endRegister ≤ 131070 ∧
      ∀ other : Framer, other.GetData.take 4 = frame.GetData.take 4 →
        RegisterAddressAndNumber other = RegisterAddressAndNumber frame := by
  obtain ⟨a, b, c, d, rest, hdata⟩ := length_ge_four frame.GetData hlen
  have ha : a < 256 := hbytes a (by simp [hdata])
  have hb : b < 256 := hbytes b (by simp [hdata])
  have hc : c < 256 := hbytes c (by simp [hdata])
  have hd : d < 256 := hbytes d (by simp [hdata])
  have hreg : (b ||| (a <<< 8)) % 65536 = 256 * a + b := by
    rw [uint16_of_bytes a b hb]; omega
  have hnum : (d ||| (c <<< 8)) % 65536 = 256 * c + d := by
    rw [uint16_of_bytes c d hd]; omega
  refine ⟨_, _, _, registerAddressAndNumber_cons frame a b c d rest hdata, ?_, ?_, rfl, ?_, ?_, ?_⟩
  · simp only [hdata, hreg]; simp
  · simp only [hdata, hnum]; simp
  · omega
  · omega
  · intro other hother
    rw [hdata] at hother
    have hlen2 : 4 ≤ other.GetData.length := by
      have := congrArg List.length hother
      simp at this
      omega
    obtain ⟨a2, b2, c2, d2, rest2, hdata2⟩ := length_ge_four other.GetData hlen2
    rw [hdata2] at hother
    simp at hother
    obtain ⟨rfl, rfl, rfl, rfl⟩ := hother
    rw [registerAddressAndNumber_cons other a2 b2 c2 d2 rest2 hdata2,
      registerAddressAndNumber_cons frame a2 b2 c2 d2 rest hdata]

theorem registerAddressAndNumber_reads_big_endian_witness :
    ∃ register numRegs endRegister : Int,
      RegisterAddressAndNumber (sampleFrame [1, 2, 3, 4, 5, 6]) =
        some (register, numRegs, endRegister) ∧
      register = 256 * ((sampleFrame [1, 2, 3, 4, 5, 6]).GetData.getD 0 0 : Int) +
        ((sampleFrame [1, 2, 3, 4, 5, 6]).GetData.getD 1 0 : Int) ∧
      numRegs = 256 * ((sampleFrame [1, 2, 3, 4, 5, 6]).GetData.getD 2 0 : Int) +
        ((sampleFrame [1, 2, 3, 4, 5, 6]).GetData.getD 3 0 : Int) ∧
      endRegister = register + numRegs ∧
      0 ≤ endRegister ∧ endRegister ≤ 131070 ∧
      ∀ other : Framer, other.GetData.take 4 = (sampleFrame [1, 2, 3, 4, 5, 6]).GetData.take 4 →
        RegisterAddressAndNumber other =
          RegisterAddressAndNumber (sampleFrame [1, 2, 3, 4, 5, 6]) :=
  registerAddressAndNumber_reads_big_endian (sampleFrame [1, 2, 3, 4, 5, 6])
    (by decide) (by decide)

/-- C8: on a frame whose payload has at least 4 bytes, `RegisterAddressAndValue`
returns `register = 256 * data[0] + data[1]` and `value = 256 * data[2] + data[3]`,
both big-endian 16-bit numbers.  The function only reads the frame (it is a function
of the frame's payload). -/
theorem registerAddressAndValue_reads_big_endian (frame : Framer)
    (hlen : 4 ≤ frame.GetData.length)
    (hbytes : ∀ b ∈ frame.GetData, b < 256) :
    ∃ (register : Int) (value : Nat),
      RegisterAddressAndValue frame = some (register, value) ∧
      register = 256 * (frame.GetData.getD 0 0 : Int) + (frame.GetData.getD 1 0 : Int) ∧
      value = 256 * frame.GetData.getD 2 0 + frame.GetData.getD 3 0 ∧
      0 ≤ register ∧ register < 65536 ∧ value < 65536 := by
  obtain ⟨a, b, c, d, rest, hdata⟩ := length_ge_four frame.GetData hlen
  have ha : a < 256 := hbytes a (by simp [hdata])
  have hb : b < 256 := hbytes b (by simp [hdata])
  have hc : c < 256 := hbytes c (by simp [hdata])
  have hd : d < 256 := hbytes d (by simp [hdata])
  have hreg : (b ||| (a <<< 8)) % 65536 = 256 * a + b := by
    rw [uint16_of_bytes a b hb]; omega
  have hval : (d ||| (c <<< 8)) % 65536 = 256 * c + d := by
    rw [uint16_of_bytes c d hd]; omega
  refine ⟨_, _, registerAddressAndValue_cons frame a b c d rest hdata, ?_, ?_, ?_, ?_, ?_⟩
  · simp only [hdata, hreg]; simp
  · simp only [hdata, hval]; simp
  · omega
  · omega
  · omega

theorem registerAddressAndValue_reads_big_endian_witness :
    ∃ (register : Int) (value : Nat),
      RegisterAddressAndValue (sampleFrame [0, 10, 18, 52]) = some (register, value) ∧
      register = 256 * ((sampleFrame [0, 10, 18, 52]).GetData.getD 0 0 : Int) +
        ((sampleFrame [0, 10, 18, 52]).GetData.getD 1 0 : Int) ∧
      value = 256 * (sampleFrame [0, 10, 18, 52]).GetData.getD 2 0 +
        (sampleFrame [0, 10, 18, 52]).GetData.getD 3 0 ∧
      0 ≤ register ∧ register < 65536 ∧ value < 65536 :=
  registerAddressAndValue_reads_big_endian (sampleFrame [0, 10, 18, 52])
    (by decide) (by decide)

/-! ## Payload builders -/

/-- C9, as stated, fails: the byte at offset 4 is not always the number of value
bytes that follow.  With 128 values, 256 value bytes follow and the byte at offset
4 is 0. -/
theorem setDataWithRegisterAndNumberAndValues_byteCount_counterexample :
    (SetDataWithRegisterAndNumberAndValues (sampleFrame []) 0 128
        (List.replicate 128 0)).GetData[4]? = some 0 ∧
    2 * (List.replicate 128 0).length = 256 ∧
    ((SetDataWithRegisterAndNumberAndValues (sampleFrame []) 0 128
        (List.replicate 128 0)).GetData.drop 5).length = 256 := by
  rw [setDataWithRegisterAndNumberAndValues_payload]
  refine ⟨by simp, by simp, ?_⟩
  simp [uint16ToBytes_length]

/-- C9, amended: for 16-bit `register`, `number` and `values`,
`SetDataWithRegisterAndNumberAndValues` sets the payload to exactly
`5 + 2 * len(values)` bytes: `register` big-endian at offsets 0 and 1, `number`
big-endian at offsets 2 and 3, at offset 4 the byte `2 * len(values) mod 256`,
which is the number of value bytes that follow whenever `len(values) ≤ 127`, and
from offset 5 on each value as two big-endian bytes, in order. -/
theorem setDataWithRegisterAndNumberAndValues_layout (frame : Framer)
    (register number : Nat) (values : List Nat)
    (hreg : register < 65536) (hnum : number < 65536)
    (hvals : ∀ v ∈ values, v < 65536) :
    ∃ data, (SetDataWithRegisterAndNumberAndValues frame register number values).GetData = data ∧
      data.length = 5 + 2 * values.length ∧
      data[0]? = some (register / 256) ∧ data[1]? = some (register % 256) ∧
      data[2]? = some (number / 256) ∧ data[3]? = some (number % 256) ∧
      data[4]? = some ((2 * values.length) % 256) ∧
      (values.length ≤ 127 → data[4]? = some (2 * values.length)) ∧
      ∀ i v, values[i]? = some v →
        data[5 + 2 * i]? = some (v / 256) ∧ data[5 + 2 * i + 1]? = some (v % 256) := by
  refine ⟨_, setDataWithRegisterAndNumberAndValues_payload frame register number values,
    ?_, ?_, ?_, ?_, ?_, ?_, ?_, ?_⟩
  · simp [uint16ToBytes_length]; omega
  · simp [uint16_high_byte register hreg]
  · simp
  · simp [uint16_high_byte number hnum]
  · simp
  · simp [Nat.mul_comm]
  · intro hle
    have : values.length * 2 % 256 = 2 * values.length := by omega
    simp [this]
  · intro i v hv
    have hmem : v ∈ values := List.getElem?_mem hv
    obtain ⟨h1, h2⟩ := uint16ToBytes_getElem values i v hv
    rw [uint16_high_byte v (hvals v hmem)] at h1
    have e1 : 5 + 2 * i = (2 * i) + 1 + 1 + 1 + 1 + 1 := by omega
    have e2 : 5 + 2 * i + 1 = (2 * i + 1) + 1 + 1 + 1 + 1 + 1 := by omega
    constructor
    · rw [e1]; simpa using h1
    · rw [e2]; simpa using h2

theorem setDataWithRegisterAndNumberAndValues_layout_witness :
    ∃ data, (SetDataWithRegisterAndNumberAndValues (sampleFrame [1]) 10 2
        [4660, 255]).GetData = data ∧
      data.length = 5 + 2 * [4660, 255].length ∧
      data[0]? = some (10 / 256) ∧ data[1]? = some (10 % 256) ∧
      data[2]? = some (2 / 256) ∧ data[3]? = some (2 % 256) ∧
      data[4]? = some ((2 * [4660, 255].length) % 256) ∧
      ([4660, 255].length ≤ 127 → data[4]? = some (2 * [4660, 255].length)) ∧
      ∀ i v, [4660, 255][i]? = some v →
        data[5 + 2 * i]? = some (v / 256) ∧ data[5 + 2 * i + 1]? = some (v % 256) :=
  setDataWithRegisterAndNumberAndValues_layout (sampleFrame [1]) 10 2 [4660, 255]
    (by decide) (by decide) (by decide)

/-- C10, as stated, fails: the byte at offset 4 is not always `len(rawBytes)`.  With
256 raw bytes the byte at offset 4 is 0. -/
theorem setDataWithRegisterAndNumberAndBytes_byteCount_counterexample :
    (SetDataWithRegisterAndNumberAndBytes (sampleFrame []) 0 2048
        (List.replicate 256 0)).GetData[4]? = some 0 ∧
    (List.replicate 256 0).length = 256 := by
  rw [setDataWithRegisterAndNumberAndBytes_payload]
  exact ⟨by rw [List.length_replicate, getElem?_four], List.length_replicate 256 0⟩

/-- C10, amended: for 16-bit `register` and `number`,
`SetDataWithRegisterAndNumberAndBytes` sets the payload to exactly
`5 + len(rawBytes)` bytes: `register` big-endian at offsets 0 and 1, `number`
big-endian at offsets 2 and 3, at offset 4 the byte `len(rawBytes) mod 256`, which
is `len(rawBytes)` whenever `len(rawBytes) ≤ 255`, and from offset 5 on `rawBytes`
unchanged and in order. -/
theorem setDataWithRegisterAndNumberAndBytes_layout (frame : Framer)
    (register number : Nat) (bytes : List Nat)
    (hreg : register < 65536) (hnum : number < 65536) :
    ∃ data, (SetDataWithRegisterAndNumberAndBytes frame register number bytes).GetData = data ∧
      data.length = 5 + bytes.length ∧
      data[0]? = some (register / 256) ∧ data[1]? = some (register % 256) ∧
      data[2]? = some (number / 256) ∧ data[3]? = some (number % 256) ∧
      data[4]? = some (bytes.length % 256) ∧
      (bytes.length ≤ 255 → data[4]? = some bytes.length) ∧
      data.drop 5 = bytes := by
  refine ⟨_, setDataWithRegisterAndNumberAndBytes_payload frame register number bytes,
    ?_, ?_, ?_, ?_, ?_, ?_, ?_, ?_⟩
  · simp; omega
  · simp [uint16_high_byte register hreg]
  · simp
  · simp [uint16_high_byte number hnum]
  · simp
  · simp
  · intro hle
    have : bytes.length % 256 = bytes.length := by omega
    simp [this]
  · simp

theorem setDataWithRegisterAndNumberAndBytes_layout_witness :
    ∃ data, (SetDataWithRegisterAndNumberAndBytes (sampleFrame [1]) 19 10
        [205, 1]).GetData = data ∧
      data.length = 5 + [205, 1].length ∧
      data[0]? = some (19 / 256) ∧ data[1]? = some (19 % 256) ∧
      data[2]? = some (10 / 256) ∧ data[3]? = some (10 % 256) ∧
      data[4]? = some ([205, 1].length % 256) ∧
      ([205, 1].length ≤ 255 → data[4]? = some [205, 1].length) ∧
      data.drop 5 = [205, 1] :=
  setDataWithRegisterAndNumberAndBytes_layout (sampleFrame [1]) 19 10 [205, 1]
    (by decide) (by decide)

/-- C11: for 16-bit `register` and `number`, `SetDataWithRegisterAndNumber` replaces
the payload with exactly the 4 bytes `[register high, register low, number high,
number low]`, whatever the previous payload was; the frame is touched through
`SetData` only, so its function code and address are as before. -/
theorem setDataWithRegisterAndNumber_layout (frame : Framer) (register number : Nat)
    (hreg : register < 65536) (hnum : number < 65536) :
    (SetDataWithRegisterAndNumber frame register number).GetData =
      [register / 256, register % 256, number / 256, number % 256] ∧
    SetDataWithRegisterAndNumber frame register number =
      frame.SetData (some [register / 256, register % 256, number / 256, number % 256]) ∧
    (SetDataWithRegisterAndNumber frame register number).GetFunction = frame.GetFunction ∧
    (SetDataWithRegisterAndNumber frame register number).GetAddress = frame.GetAddress ∧
    (∀ previous : Option (List Nat),
      SetDataWithRegisterAndNumber (frame.SetData previous) register number =
        SetDataWithRegisterAndNumber frame register number) := by
  have hpay := setDataWithRegisterAndNumber_payload frame register number
  rw [uint16_high_byte register hreg, uint16_high_byte number hnum] at hpay
  have hform : SetDataWithRegisterAndNumber frame register number =
      frame.SetData (some [register / 256, register % 256, number / 256, number % 256]) := by
    have h := setDataWithRegisterAndNumber_payload frame register number
    unfold SetDataWithRegisterAndNumber at h ⊢
    rw [getData_setData, Option.getD_some] at h
    show frame.SetData
        (some (BigEndian.PutUint16 (BigEndian.PutUint16 (make 4) 0 register) 2 number)) = _
    rw [h, uint16_high_byte register hreg, uint16_high_byte number hnum]
  refine ⟨hpay, hform, ?_, ?_, ?_⟩
  · rw [hform, getFunction_setData]
  · rw [hform, getAddress_setData]
  · intro previous
    unfold SetDataWithRegisterAndNumber
    exact setData_setData frame previous _

theorem setDataWithRegisterAndNumber_layout_witness :
    (SetDataWithRegisterAndNumber (sampleFrame [9, 9, 9, 9, 9, 9, 9]) 4660 3).GetData =
      [4660 / 256, 4660 % 256, 3 / 256, 3 % 256] ∧
    (SetDataWithRegisterAndNumber (sampleFrame [9, 9, 9, 9, 9, 9, 9]) 4660 3).GetFunction =
      (sampleFrame [9, 9, 9, 9, 9, 9, 9]).GetFunction :=
  ⟨(setDataWithRegisterAndNumber_layout (sampleFrame [9, 9, 9, 9, 9, 9, 9]) 4660 3
      (by decide) (by decide)).1,
   (setDataWithRegisterAndNumber_layout (sampleFrame [9, 9, 9, 9, 9, 9, 9]) 4660 3
      (by decide) (by decide)).2.2.1⟩

/-- C19: for 16-bit `r` and `n`, after `SetDataWithRegisterAndNumber frame r n`,
after `SetDataWithRegisterAndNumberAndValues frame r n values` and after
`SetDataWithRegisterAndNumberAndBytes frame r n bytes`, `RegisterAddressAndNumber`
returns exactly `(r, n, r + n)`. -/
theorem registerAddressAndNumber_after_setData (frame : Framer) (r n : Nat)
    (values bytes : List Nat) (hr : r < 65536) (hn : n < 65536) :
    RegisterAddressAndNumber (SetDataWithRegisterAndNumber frame r n) =
      some ((r : Int), (n : Int), (r : Int) + (n : Int)) ∧
    RegisterAddressAndNumber (SetDataWithRegisterAndNumberAndValues frame r n values) =
      some ((r : Int), (n : Int), (r : Int) + (n : Int)) ∧
    RegisterAddressAndNumber (SetDataWithRegisterAndNumberAndBytes frame r n bytes) =
      some ((r : Int), (n : Int), (r : Int) + (n : Int)) :=
  ⟨registerAddressAndNumber_of_header _ r n [] hr hn
      (setDataWithRegisterAndNumber_payload frame r n),
   registerAddressAndNumber_of_header _ r n _ hr hn
      (setDataWithRegisterAndNumberAndValues_payload frame r n values),
   registerAddressAndNumber_of_header _ r n _ hr hn
      (setDataWithRegisterAndNumberAndBytes_payload frame r n bytes)⟩

theorem registerAddressAndNumber_after_setData_witness :
    RegisterAddressAndNumber (SetDataWithRegisterAndNumber (sampleFrame []) 300 125) =
      some (300, 125, 300 + 125) ∧
    RegisterAddressAndNumber
        (SetDataWithRegisterAndNumberAndValues (sampleFrame []) 300 125 [1, 65535]) =
      some (300, 125, 300 + 125) ∧
    RegisterAddressAndNumber
        (SetDataWithRegisterAndNumberAndBytes (sampleFrame []) 300 125 [255]) =
      some (300, 125, 300 + 125) :=
  registerAddressAndNumber_after_setData (sampleFrame []) 300 125 [1, 65535] [255]
    (by decide) (by decide)

/-! ## The fresh server -/

/-- C12: for `id` from 1 to 247 the dispatch table of `NewServer id` maps the eight
function codes `ReadCoils`, `ReadDiscreteInput`, `ReadHoldingRegisters`,
`ReadInputRegisters`, `WriteSingleCoil`, `WriteHoldingRegister`,
`WriteMultipleCoils` and `WriteHoldingRegisters` to the standard handler of the same
name; the eight codes are distinct and every other opcode is absent. -/
theorem newServer_dispatch_table (std : StandardHandlers) (id : Nat)
    (hlo : 1 ≤ id) (hhi : id ≤ 247) :
    ∃ s, NewServer std id = .ok s ∧
      s.function ReadCoils_fc = some std.ReadCoils ∧
      s.function ReadDiscreteInput_fc = some std.ReadDiscreteInputs ∧
      s.function ReadHoldingRegisters_fc = some std.ReadHoldingRegisters ∧
      s.function ReadInputRegisters_fc = some std.ReadInputRegisters ∧
      s.function WriteSingleCoil_fc = some std.WriteSingleCoil ∧
      s.function WriteHoldingRegister_fc = some std.WriteHoldingRegister ∧
      s.function WriteMultipleCoils_fc = some std.WriteMultipleCoils ∧
      s.function WriteHoldingRegisters_fc = some std.WriteHoldingRegisters ∧
      [ReadCoils_fc, ReadDiscreteInput_fc, ReadHoldingRegisters_fc, ReadInputRegisters_fc,
        WriteSingleCoil_fc, WriteHoldingRegister_fc, WriteMultipleCoils_fc,
        WriteHoldingRegisters_fc].Nodup ∧
      ∀ k, k ∉ [ReadCoils_fc, ReadDiscreteInput_fc, ReadHoldingRegisters_fc,
          ReadInputRegisters_fc, WriteSingleCoil_fc, WriteHoldingRegister_fc,
          WriteMultipleCoils_fc, WriteHoldingRegisters_fc] →
        s.function k = none := by
  have h0 : ¬ id = 0 := by omega
  have h1 : ¬ id > 247 := by omega
  refine ⟨_, by simp only [NewServer, h0, h1, if_false]; rfl,
    rfl, rfl, rfl, rfl, rfl, rfl, rfl, rfl, by decide, ?_⟩
  intro k hk
  simp only [List.mem_cons, List.mem_singleton, List.not_mem_nil, or_false, not_or] at hk
  obtain ⟨k1, k2, k3, k4, k5, k6, k7, k8⟩ := hk
  simp [mapSet, k1, k2, k3, k4, k5, k6, k7, k8]

theorem newServer_dispatch_table_witness :
    ∃ s, NewServer sampleStandardHandlers 17 = .ok s ∧
      s.function ReadCoils_fc = some sampleStandardHandlers.ReadCoils ∧
      s.function ReadDiscreteInput_fc = some sampleStandardHandlers.ReadDiscreteInputs ∧
      s.function ReadHoldingRegisters_fc = some sampleStandardHandlers.ReadHoldingRegisters ∧
      s.function ReadInputRegisters_fc = some sampleStandardHandlers.ReadInputRegisters ∧
      s.function WriteSingleCoil_fc = some sampleStandardHandlers.WriteSingleCoil ∧
      s.function WriteHoldingRegister_fc = some sampleStandardHandlers.WriteHoldingRegister ∧
      s.function WriteMultipleCoils_fc = some sampleStandardHandlers.WriteMultipleCoils ∧
      s.function WriteHoldingRegisters_fc = some sampleStandardHandlers.WriteHoldingRegisters ∧
      [ReadCoils_fc, ReadDiscreteInput_fc, ReadHoldingRegisters_fc, ReadInputRegisters_fc,
        WriteSingleCoil_fc, WriteHoldingRegister_fc, WriteMultipleCoils_fc,
        WriteHoldingRegisters_fc].Nodup ∧
      ∀ k, k ∉ [ReadCoils_fc, ReadDiscreteInput_fc, ReadHoldingRegisters_fc,
          ReadInputRegisters_fc, WriteSingleCoil_fc, WriteHoldingRegister_fc,
          WriteMultipleCoils_fc, WriteHoldingRegisters_fc] →
        s.function k = none :=
  newServer_dispatch_table sampleStandardHandlers 17 (by decide) (by decide)

/-- C13: for `id` from 1 to 247 the server `NewServer id` has a discrete-input bank
and a coil bank of 512 bytes each, a holding-register bank and an input-register
bank of 1024 bytes each, and every byte of the four banks is 0. -/
theorem newServer_banks (std : StandardHandlers) (id : Nat)
    (hlo : 1 ≤ id) (hhi : id ≤ 247) :
    ∃ s, NewServer std id = .ok s ∧
      s.DiscreteInputs.length = 512 ∧ s.Coils.length = 512 ∧
      s.HoldingRegisters.length = 1024 ∧ s.InputRegisters.length = 1024 ∧
      (∀ b ∈ s.DiscreteInputs, b = 0) ∧ (∀ b ∈ s.Coils, b = 0) ∧
      (∀ b ∈ s.HoldingRegisters, b = 0) ∧ (∀ b ∈ s.InputRegisters, b = 0) := by
  have h0 : ¬ id = 0 := by omega
  have h1 : ¬ id > 247 := by omega
  refine ⟨_, by simp only [NewServer, h0, h1, if_false]; rfl, ?_, ?_, ?_, ?_, ?_, ?_, ?_, ?_⟩
  · exact List.length_replicate 512 0
  · exact List.length_replicate 512 0
  · exact List.length_replicate 1024 0
  · exact List.length_replicate 1024 0
  · intro b hb; exact List.eq_of_mem_replicate hb
  · intro b hb; exact List.eq_of_mem_replicate hb
  · intro b hb; exact List.eq_of_mem_replicate hb
  · intro b hb; exact List.eq_of_mem_replicate hb

theorem newServer_banks_witness :
    ∃ s, NewServer sampleStandardHandlers 247 = .ok s ∧
      s.DiscreteInputs.length = 512 ∧ s.Coils.length = 512 ∧
      s.HoldingRegisters.length = 1024 ∧ s.InputRegisters.length = 1024 ∧
      (∀ b ∈ s.DiscreteInputs, b = 0) ∧ (∀ b ∈ s.Coils, b = 0) ∧
      (∀ b ∈ s.HoldingRegisters, b = 0) ∧ (∀ b ∈ s.InputRegisters, b = 0) :=
  newServer_banks sampleStandardHandlers 247 (by decide) (by decide)

/-! ## Exceptions in responses -/

/-- C14: `GetException` returns `Success` (code 0) when the function code of the
frame has the bit 0x80 clear, whatever the payload; when the bit is set and the
payload is not empty it returns the first payload byte as the exception. -/
theorem getException_by_high_bit (frame : Framer) :
    (frame.GetFunction &&& 0x80 = 0 → GetException frame = some Success ∧ Success = 0) ∧
    (∀ b rest, frame.GetFunction &&& 0x80 ≠ 0 → frame.GetData = b :: rest →
      GetException frame = some b) := by
  constructor
  · intro hclear
    exact ⟨by simp [GetException, hclear], rfl⟩
  · intro b rest hset hdata
    simp [GetException, hset, hdata]

theorem getException_by_high_bit_witness :
    (GetException (sampleFrame [7, 8]) = some Success ∧ Success = 0) ∧
    GetException (Framer.rtu ⟨1, 0x83, [2, 5], 0⟩) = some 2 :=
  ⟨(getException_by_high_bit (sampleFrame [7, 8])).1 (by decide),
   (getException_by_high_bit (Framer.rtu ⟨1, 0x83, [2, 5], 0⟩)).2 2 [5] (by decide) rfl⟩

/-- C20: for a request whose function code is below 0x80, `GetException` applied to
the response of `handle` returns (without fault) `IllegalFunction` when the opcode
is not in the dispatch table, the code `e` when the registered handler returned a
non-nil exception pointer other than `&Success` pointing at `e`, and `Success` when
the handler returned `&Success`. -/
theorem getException_of_handle (s : Server) (request : Request)
    (hfc : request.frame.GetFunction < 0x80) :
    (s.function request.frame.GetFunction = none →
      ∃ s1 response, s.handle request = some (s1, response) ∧
        GetException response = some IllegalFunction) ∧
    (∀ (h : Handler) (e : Exception),
      s.function request.frame.GetFunction = some h →
      (h s.toMemory request.frame).exception ≠ ExceptionPtr.addrSuccess →
      (h s.toMemory request.frame).exception.deref = some e →
      ∃ s1 response, s.handle request = some (s1, response) ∧
        GetException response = some e) ∧
    (∀ h : Handler,
      s.function request.frame.GetFunction = some h →
      (h s.toMemory request.frame).exception = ExceptionPtr.addrSuccess →
      ∃ s1 response, s.handle request = some (s1, response) ∧
        GetException response = some Success) := by
  refine ⟨?_, ?_, ?_⟩
  · intro habsent
    obtain ⟨response, hset, hfn, hdata⟩ :=
      setException_of_deref request.frame.Copy (.var IllegalFunction) IllegalFunction rfl
    refine ⟨s, response, ?_, getException_of_exception_response response _ _ hfn hdata⟩
    simp [Server.handle, habsent, hset]
  · intro h e hreg hne hcode
    obtain ⟨response, hset, hfn, hdata⟩ :=
      setException_of_deref (request.frame.Copy.SetData (h s.toMemory request.frame).data)
        (h s.toMemory request.frame).exception e hcode
    refine ⟨{ s with toMemory := (h s.toMemory request.frame).memory }, response, ?_,
      getException_of_exception_response response _ _ hfn hdata⟩
    simp [Server.handle, hreg, hne, hset]
  · intro h hreg hexc
    refine ⟨{ s with toMemory := (h s.toMemory request.frame).memory },
      request.frame.Copy.SetData (h s.toMemory request.frame).data, ?_, ?_⟩
    · simp [Server.handle, hreg, hexc]
    · have hclear : (request.frame.Copy.SetData
          (h s.toMemory request.frame).data).GetFunction &&& 0x80 = 0 := by
        rw [getFunction_setData]
        exact land_0x80_of_lt _ hfc
      simp [GetException, hclear]

theorem getException_of_handle_witness :
    (∃ s1 response, sampleServer.handle (sampleRequest 99) = some (s1, response) ∧
        GetException response = some IllegalFunction) ∧
    (∃ s1 response, sampleServer.handle (sampleRequest 66) = some (s1, response) ∧
        GetException response = some 4) ∧
    (∃ s1 response, sampleServer.handle (sampleRequest 65) = some (s1, response) ∧
        GetException response = some Success) :=
  ⟨(getException_of_handle sampleServer (sampleRequest 99) (by decide)).1 rfl,
   (getException_of_handle sampleServer (sampleRequest 66) (by decide)).2.1
      (rejectHandler 4) 4 rfl (by decide) rfl,
   (getException_of_handle sampleServer (sampleRequest 65) (by decide)).2.2
      echoHandler rfl rfl⟩

/-! ## The engine loop: `Server.handler` -/

/-- C16, as stated, fails.  With tracing on and a trace sink that nobody reads, the
loop completes the first send of the request trace (the sink has capacity 1) and is
stuck in the second: `handle` is not called and nothing is written for the one
request that arrived.  A registered handler that returns a nil exception pointer
makes `handle` fault in `SetException`, and with tracing on a response with function
code 3 and an empty payload makes `frameToString` fault; in both cases the loop ends
in a fault and writes nothing. -/
theorem handler_unread_sink_counterexample :
    (sampleTracingServer.requestChan = Chan.opened ∧
      unreadArrivals.length = 1 ∧
      (sampleTracingServer.handler sampleEnv unreadArrivals).map
          (fun result => (writesOf result.2.1, result.2.2)) =
        some ([], LoopState.Stalled)) ∧
    (sampleServer.RegisterFunctionHandler 68 nilExceptionHandler).handler sampleEnv
        (readArrival 68) = none ∧
    (sampleTracingServer.RegisterFunctionHandler 3 silentHandler).handler sampleEnv
        (readArrival 3) = none ∧
    ¬ (∀ (s : Server) (env : Env) (arrivals : List Arrival),
        s.requestChan = Chan.opened →
        ∃ last responses effects,
          s.handleInOrder (arrivals.map Arrival.request) = some (last, responses) ∧
          s.handler env arrivals = some (last, effects, LoopState.Running) ∧
          responses.length = arrivals.length ∧
          writesOf effects =
            List.zipWith (fun a response => (a.request.conn, env.Bytes response))
              arrivals responses) := by
  have hstall : (sampleTracingServer.handler sampleEnv unreadArrivals).map
      (fun result => (writesOf result.2.1, result.2.2)) = some ([], LoopState.Stalled) := rfl
  refine ⟨⟨rfl, rfl, hstall⟩, rfl, rfl, ?_⟩
  intro hclaim
  obtain ⟨last, responses, effects, _, hloop, _, _⟩ :=
    hclaim sampleTracingServer sampleEnv unreadArrivals rfl
  rw [hloop] at hstall
  simp at hstall

/-- C16, amended: on an open request queue, when every registered handler acts on
the memory banks only and returns a non-nil exception pointer and, if tracing is on
(`Debug` set and a trace sink present), the sink is open and empty, its reader takes
the four traces of every request and `frameToString` returns for every request frame
and every response frame, the engine loop serves every finite sequence of arrivals
in queue order: the
server it leaves and the responses are those of calling `handle` on the requests
one after the other, each on the state the previous call left; the loop is still
running; and its writes are exactly one per request, the wire bytes of that
request's response on that request's connection, in order.  None of this depends on
whether a write failed. -/
theorem handler_serves_in_order (s : Server) (env : Env) (arrivals : List Arrival)
    (hopen : s.requestChan = Chan.opened)
    (hexc : ∀ k h m frame, s.function k = some h → (h m frame).exception ≠ ExceptionPtr.null)
    (htrace : s.Debug = true → s.outChan ≠ Chan.nilChan →
      s.outChan = Chan.opened ∧
      (∀ a ∈ arrivals, 4 ≤ a.sinkReads ∧
        ∀ time, frameToString env a.request.frame time ≠ none) ∧
      (∀ last responses,
        s.handleInOrder (arrivals.map Arrival.request) = some (last, responses) →
        ∀ response ∈ responses, ∀ time, frameToString env response time ≠ none)) :
    ∃ last responses effects,
      s.handleInOrder (arrivals.map Arrival.request) = some (last, responses) ∧
      s.handler env arrivals = some (last, effects, LoopState.Running) ∧
      responses.length = arrivals.length ∧
      writesOf effects =
        List.zipWith (fun a response => (a.request.conn, env.Bytes response))
          arrivals responses := by
  obtain ⟨last, responses, hrun⟩ :=
    handleInOrder_returns s (arrivals.map Arrival.request) hexc
  obtain ⟨effects, hloop, hlen, hwrites⟩ :=
    handler_follows_run s env arrivals last responses hopen hrun
      (fun hd hs =>
        ⟨(htrace hd hs).1, (htrace hd hs).2.1, (htrace hd hs).2.2 last responses hrun⟩)
  exact ⟨last, responses, effects, hrun, hloop, hlen, hwrites⟩

theorem handler_serves_in_order_witness :
    ∃ last responses effects,
      sampleTracingServer.handleInOrder (sampleArrivals.map Arrival.request) =
        some (last, responses) ∧
      sampleTracingServer.handler sampleEnv sampleArrivals =
        some (last, effects, LoopState.Running) ∧
      responses.length = sampleArrivals.length ∧
      writesOf effects =
        List.zipWith (fun a response => (a.request.conn, sampleEnv.Bytes response))
          sampleArrivals responses :=
  handler_serves_in_order sampleTracingServer sampleEnv sampleArrivals rfl
    (by
      intro k h m frame hk
      have hcases : k = 67 ∨ k = 66 ∨ k = 65 ∨ (k ≠ 67 ∧ k ≠ 66 ∧ k ≠ 65) := by omega
      rcases hcases with rfl | rfl | rfl | ⟨h1, h2, h3⟩
      · have : h = silentHandler := by
          have h67 : sampleTracingServer.function 67 = some silentHandler := rfl
          rw [h67] at hk; exact (Option.some.inj hk).symm
        subst this; simp [silentHandler]
      · have : h = rejectHandler 4 := by
          have h66 : sampleTracingServer.function 66 = some (rejectHandler 4) := rfl
          rw [h66] at hk; exact (Option.some.inj hk).symm
        subst this; simp [rejectHandler]
      · have : h = echoHandler := by
          have h65 : sampleTracingServer.function 65 = some echoHandler := rfl
          rw [h65] at hk; exact (Option.some.inj hk).symm
        subst this; simp [echoHandler]
      · have hnone : sampleTracingServer.function k = none := by
          simp [sampleTracingServer, Server.ListenRequests, sampleServer, mapSet, h1, h2, h3]
        rw [hnone] at hk; exact absurd hk (by simp))
    (by
      intro _ _
      refine ⟨rfl, ?_, ?_⟩
      · intro a ha
        simp only [sampleArrivals, List.mem_cons, List.mem_singleton, List.not_mem_nil,
          or_false] at ha
        rcases ha with rfl | rfl | rfl
        · exact ⟨by decide, fun time => frameToString_returns _ _ _ (by decide)⟩
        · exact ⟨by decide, fun time => frameToString_returns _ _ _ (by decide)⟩
        · exact ⟨by decide, fun time => frameToString_returns _ _ _ (by decide)⟩
      · intro last responses hrun response hmem time
        have hconcrete :
            (sampleTracingServer.handleInOrder (sampleArrivals.map Arrival.request)).map
              Prod.snd =
            some [.rtu ⟨1, 65, [0, 10, 0, 1], 0⟩, .rtu ⟨1, 131, [1], 0⟩,
              .rtu ⟨1, 194, [4], 0⟩] := rfl
        rw [hrun] at hconcrete
        simp only [Option.map_some', Option.some.injEq] at hconcrete
        subst hconcrete
        simp only [List.mem_cons, List.mem_singleton, List.not_mem_nil, or_false] at hmem
        rcases hmem with rfl | rfl | rfl
        · exact frameToString_returns _ _ _ (by decide)
        · exact frameToString_returns _ _ _ (by decide)
        · exact frameToString_returns _ _ _ (by decide))

/-- C17, evaluated on the code: when the loop finds the request queue closed, a
server on which `ListenRequests` was called closes its trace sink once and the loop
returns, but a server as `NewServer` leaves it (no trace sink, `outChan` nil) reaches
`close(s.outChan)` on the nil channel, which is a fault. -/
theorem handler_closed_queue_nil_sink_faults (std : StandardHandlers) (env : Env)
    (arrivals : List Arrival) :
    ∃ s, NewServer std 1 = .ok s ∧ s.outChan = Chan.nilChan ∧
      ({ s with requestChan := Chan.closed } : Server).handler env arrivals = none ∧
      ({ s.ListenRequests with requestChan := Chan.closed } : Server).handler env arrivals =
        some ({ s.ListenRequests with requestChan := Chan.closed, outChan := Chan.closed },
          [Effect.closeOut], LoopState.Closed) := by
  refine ⟨_, rfl, rfl, ?_, ?_⟩
  · cases arrivals <;> rfl
  · cases arrivals <;> rfl

/-- C18, evaluated on the code: `Close` leaves `requestChan` as it was (it makes and
closes `closeChan` and closes the listeners and ports).  After `Close` on a server
from `NewServer` the request queue is still open and the engine loop, with nothing
more arriving, is still running. -/
theorem close_leaves_request_queue_open (std : StandardHandlers) (env : Env) :
    (∀ s : Server, s.Close.1.requestChan = s.requestChan) ∧
    ∃ s, NewServer std 1 = .ok s ∧
      s.Close.1.requestChan = Chan.opened ∧
      s.Close.1.closeChan = Chan.closed ∧
      s.Close.1.handler env [] = some (s.Close.1, [], LoopState.Running) := by
  refine ⟨fun _ => rfl, _, rfl, rfl, rfl, rfl⟩

end mbserver
